import Mathlib

/-!
Shallow embedding of the rasa-for-botfront source files under verification:
  rasa/graph_components/converters/nlu_message_converter.py
  rasa/utils/common.py
  rasa_addons/utils.py
Python dictionaries are modelled as association lists with unique keys,
Python values by the inductive `PyObj`, the file system and other external
state by explicit records threaded through the functions, and Python
exceptions by `Except`.
-/

namespace RasaSpec

/-- Model of a Python value as it appears in the code under study:
`None`, a string, an integer, or a string-keyed dictionary. -/
inductive PyObj : Type where
  | none : PyObj
  | str : String → PyObj
  | int : Int → PyObj
  | dict : List (String × PyObj) → PyObj

/-- Keys of a Python dict modelled as an association list (`d.keys()`). -/
def dictKeys {K V : Type} (d : List (K × V)) : List K :=
  d.map Prod.fst

/-- Membership test `k in d` on a Python dict. -/
def dictContains {K V : Type} [DecidableEq K] (d : List (K × V)) (k : K) : Bool :=
  d.any (fun p => decide (p.1 = k))

/-- Lookup `d[k]` on a Python dict, `none` when the key is absent. -/
def dictGet? {K V : Type} [DecidableEq K] (d : List (K × V)) (k : K) : Option V :=
  (d.find? (fun p => decide (p.1 = k))).map Prod.snd

/-- Assignment `d[k] = v` for a key already present: the entry keeps its
position, only its value changes (CPython dict update semantics). -/
def dictSetExisting {K V : Type} [DecidableEq K] (d : List (K × V)) (k : K) (v : V) :
    List (K × V) :=
  d.map (fun p => if p.1 = k then (p.1, v) else p)

/-! ## rasa/utils/common.py : update_existing_keys -/

/-- Embedding of `rasa.utils.common.update_existing_keys`:
`updated = original.copy()`, then for each `(k, v)` in `updates`,
`if k in updated: updated[k] = v`, and `updated` is returned. -/
def update_existing_keys {K V : Type} [DecidableEq K]
    (original updates : List (K × V)) : List (K × V) :=
  updates.foldl
    (fun updated kv =>
      if dictContains updated kv.1 then dictSetExisting updated kv.1 kv.2 else updated)
    original

/-! ## Model of Python exceptions -/

/-- The Python exceptions that the embedded code can raise or catch. -/
inductive PyError : Type where
  | fileNotFound : PyError
  | valueError : String → PyError
  | other : String → PyError
deriving DecidableEq, Repr

/-! ## rasa/graph_components/converters/nlu_message_converter.py -/

/-- `rasa.shared.nlu.constants.TEXT`. -/
def TEXT : String := "text"

/-- Model of `rasa.core.channels.channel.UserMessage` restricted to the three
attributes the converter reads; each is `Optional` in the source, which the
`PyObj` model covers through its `none` constructor. -/
structure UserMessage where
  text : PyObj
  message_id : PyObj
  metadata : PyObj

/-- Model of `rasa.shared.nlu.training_data.message.Message`: the converter
only ever calls `Message(data=data)`, so the model keeps the `data` dict. -/
structure Message where
  data : List (String × PyObj)

/-- The component class. `NLUMessageConverter` defines no `__init__` and no
instance attributes, so an instance carries no state. -/
structure NLUMessageConverter where

/-- Embedding of `NLUMessageConverter.create`: the body is `return cls()`;
every argument is ignored.  The storage, resource and execution-context
types are abstract parameters because `create` never inspects them. -/
def NLUMessageConverter.create {MS R EC : Type}
    (config : List (String × PyObj)) (model_storage : MS) (resource : R)
    (execution_context : EC) : NLUMessageConverter :=
  ⟨⟩

/-- Embedding of the static method `NLUMessageConverter.convert_user_message`.
`if message:` on an `Optional[UserMessage]` tests truthiness; `UserMessage`
defines neither `__bool__` nor `__len__`, so an instance is always truthy and
the test is equivalent to `message is not None`, i.e. `isSome` here. -/
def NLUMessageConverter.convert_user_message (message : Option UserMessage) :
    List Message :=
  match message with
  | some m =>
      [{ data := [(TEXT, m.text), ("message_id", m.message_id), ("metadata", m.metadata)] }]
  | Option.none => []

/-- Attribute access `instance.convert_user_message` on an instance resolves
to the same static function, independent of the instance. -/
def NLUMessageConverter.instance_convert (_self : NLUMessageConverter)
    (message : Option UserMessage) : List Message :=
  NLUMessageConverter.convert_user_message message

/-- Opaque model of the mutable state held in a `ModelStorage`. -/
structure ModelStorageState where
  store : List (String × PyObj)

/-- State-passing transcription of `convert_user_message`, one Python
statement at a time: the body only reads `message.text`, `message.message_id`
and `message.metadata`, builds the local dict `data`, and returns; no
statement assigns to the message or touches the model storage, so both are
threaded through unchanged. -/
def convert_user_message_effect (message : Option UserMessage)
    (storage : ModelStorageState) :
    List Message × Option UserMessage × ModelStorageState :=
  match message with
  | some m =>
      let data : List (String × PyObj) :=
        [(TEXT, m.text), ("message_id", m.message_id), ("metadata", m.metadata)]
      ([{ data := data }], some m, storage)
  | Option.none => ([], Option.none, storage)

/-! ## rasa/utils/common.py : TempDirectoryPath -/

/-- A file-system path, as its list of segments ("a/b/c" is
`["a", "b", "c"]`). -/
abbrev FSPath := List String

/-- The directory tree of the file system, as the list of directory paths
that currently exist. -/
abbrev FSPaths := List FSPath

/-- `os.path.exists` on the directory model. -/
def path_exists (fs : FSPaths) (p : FSPath) : Bool :=
  fs.contains p

/-- `q` lies in the subtree rooted at `p`: its segments start with the
segments of `p` (`p` itself included). -/
def isUnderPath (p q : FSPath) : Bool :=
  p.isPrefixOf q

/-- `shutil.rmtree p`: removes the whole subtree rooted at `p`; raises
`FileNotFoundError` when `p` does not exist. -/
def shutil_rmtree (fs : FSPaths) (p : FSPath) : Except PyError FSPaths :=
  if path_exists fs p then
    Except.ok (fs.filter (fun q => !(isUnderPath p q)))
  else
    Except.error PyError.fileNotFound

/-- Embedding of `TempDirectoryPath.__exit__`:
`if os.path.exists(self): shutil.rmtree(self)`. -/
def TempDirectoryPath_exit (p : FSPath) (fs : FSPaths) : Except PyError FSPaths :=
  if path_exists fs p then shutil_rmtree fs p else Except.ok fs

/-- Whether the `with`-block body returned normally or raised. -/
inductive BodyOutcome (A : Type) : Type where
  | normal : A → BodyOutcome A
  | raised : PyError → BodyOutcome A
deriving DecidableEq, Repr

/-- `with TempDirectoryPath(p): body` — Python runs `__exit__` on every exit
path, after a normal return and after an exception alike, so the body result
is paired with the file system it produced and `__exit__` runs on that. -/
def with_TempDirectoryPath {A : Type} (p : FSPath)
    (body : FSPaths → FSPaths × BodyOutcome A) (fs : FSPaths) :
    Except PyError (FSPaths × BodyOutcome A) :=
  let fsr := body fs
  match TempDirectoryPath_exit p fsr.1 with
  | Except.ok fs2 => Except.ok (fs2, fsr.2)
  | Except.error e => Except.error e

/-! ## rasa/utils/common.py : global configuration -/

/-- The external world the configuration readers interact with:
`rasa.shared.utils.io.read_config_file` (which may raise for any reason:
missing file, unreadable file, bad YAML) and `os.path.exists`. -/
structure IOWorld where
  read_config_file : String → Except PyError (List (String × PyObj))
  os_path_exists : String → Bool

/-- Embedding of `rasa.utils.common.read_global_config`:
`try: return read_config_file(path) except Exception: return {}`. -/
def read_global_config (w : IOWorld) (path : String) : List (String × PyObj) :=
  match w.read_config_file path with
  | Except.ok c => c
  | Except.error _ => []

/-- `rasa.constants.GLOBAL_USER_CONFIG_PATH` (the concrete string is
irrelevant to the code under study; only its identity matters). -/
def GLOBAL_USER_CONFIG_PATH : String := "~/.config/rasa/global.yml"

/-- Embedding of `rasa.utils.common.read_global_config_value`.  The result
`Except.ok Option.none` is Python `None` from `not_found`;
`Except.ok (some v)` is a found value `c[name]`; `Except.error` is the
raised `ValueError`. -/
def read_global_config_value (w : IOWorld) (name : String)
    (unavailable_ok : Bool) : Except PyError (Option PyObj) :=
  let not_found : Except PyError (Option PyObj) :=
    if unavailable_ok then Except.ok Option.none
    else Except.error (PyError.valueError ("Configuration " ++ name ++ " key not found."))
  if !(w.os_path_exists GLOBAL_USER_CONFIG_PATH) then not_found
  else
    let c := read_global_config w GLOBAL_USER_CONFIG_PATH
    if dictContains c name then Except.ok (dictGet? c name)
    else not_found

/-! ## rasa/utils/common.py : copy_directory -/

/-- One top-level entry of a directory: its name and whether it is itself a
directory (`item.is_dir()` decides between `copytree` and `copy2`). -/
structure DirEntry where
  name : String
  is_dir : Bool
deriving DecidableEq, Repr

/-- The observable state of the destination directory: whether the path
exists and its top-level entries (`destination.glob("*")`). -/
structure DirState where
  dirExists : Bool
  entries : List DirEntry
deriving DecidableEq, Repr

/-- Embedding of `rasa.utils.common.copy_directory`.  `source` is the entry
list `source.glob("*")`.  When the `ValueError` is raised the error carries
the destination state at raise time, which the theorems use to state that
nothing was copied. -/
def copy_directory (source : List DirEntry) (destination : DirState) :
    Except (PyError × DirState) DirState :=
  let dst1 := if !destination.dirExists then { dirExists := true, entries := [] } else destination
  if !dst1.entries.isEmpty then
    Except.error (PyError.valueError "Destination path is not empty. Directories can only be copied to empty directories.", dst1)
  else
    Except.ok { dirExists := true, entries := source }

/-! ## rasa_addons/utils.py : get_latest_parse_data_language -/

/-- A tracker event as the function reads it: its `"event"` field, and its
`"parse_data"` dict when that key is present, of which only the presence and
value of the `"language"` key matter. -/
structure ParseData where
  language : Option PyObj

/-- A serialized tracker event (`event["event"]` always exists on these). -/
structure Event where
  event : String
  parse_data : Option ParseData

/-- The loop guard: `event["event"] == "user" and "parse_data" in event and
"language" in event["parse_data"]`. -/
def isUserLanguageEvent (e : Event) : Bool :=
  e.event == "user" &&
    (match e.parse_data with
     | some pd => pd.language.isSome
     | Option.none => false)

/-- The value `event["parse_data"]["language"]` when both keys exist. -/
def eventLanguage (e : Event) : Option PyObj :=
  e.parse_data.bind (fun pd => pd.language)

/-- The `while True` / `next` loop over the reversed iterator: the first
event of the (already reversed) list passing the guard yields its language
value; `StopIteration` at the end yields Python `None`. -/
def latest_language_loop : List Event → PyObj
  | [] => PyObj.none
  | e :: rest =>
      if isUserLanguageEvent e then (eventLanguage e).getD PyObj.none
      else latest_language_loop rest

/-- Embedding of `rasa_addons.utils.get_latest_parse_data_language`:
`events = reversed(all_events)` then the loop above.  The Python function
returns a value, which is `None` both on `StopIteration` and when the stored
language value is itself `None`. -/
def get_latest_parse_data_language (all_events : List Event) : PyObj :=
  latest_language_loop all_events.reverse

/-! ## rasa_addons/utils.py : get_file_hash and file_as_bytes, with MD5 -/

/-- 2^32, the modulus of all MD5 word arithmetic. -/
def w32mod : Nat := 4294967296

/-- Addition of 32-bit words. -/
def wadd (a b : Nat) : Nat := (a + b) % w32mod

/-- Bitwise complement of a 32-bit word. -/
def wnot (a : Nat) : Nat := 4294967295 - a % w32mod

/-- Left rotation of a 32-bit word by `s` places, `0 < s < 32`. -/
def rotl (x s : Nat) : Nat :=
  (((x % w32mod) <<< s) % w32mod) ||| ((x % w32mod) >>> (32 - s))

/-- The 64 MD5 sine-derived round constants of RFC 1321. -/
def md5K : Array Nat := #[
  0xd76aa478, 0xe8c7b756, 0x242070db, 0xc1bdceee, 0xf57c0faf, 0x4787c62a, 0xa8304613, 0xfd469501,
  0x698098d8, 0x8b44f7af, 0xffff5bb1, 0x895cd7be, 0x6b901122, 0xfd987193, 0xa679438e, 0x49b40821,
  0xf61e2562, 0xc040b340, 0x265e5a51, 0xe9b6c7aa, 0xd62f105d, 0x02441453, 0xd8a1e681, 0xe7d3fbc8,
  0x21e1cde6, 0xc33707d6, 0xf4d50d87, 0x455a14ed, 0xa9e3e905, 0xfcefa3f8, 0x676f02d9, 0x8d2a4c8a,
  0xfffa3942, 0x8771f681, 0x6d9d6122, 0xfde5380c, 0xa4beea44, 0x4bdecfa9, 0xf6bb4b60, 0xbebfbc70,
  0x289b7ec6, 0xeaa127fa, 0xd4ef3085, 0x04881d05, 0xd9d4d039, 0xe6db99e5, 0x1fa27cf8, 0xc4ac5665,
  0xf4292244, 0x432aff97, 0xab9423a7, 0xfc93a039, 0x655b59c3, 0x8f0ccc92, 0xffeff47d, 0x85845dd1,
  0x6fa87e4f, 0xfe2ce6e0, 0xa3014314, 0x4e0811a1, 0xf7537e82, 0xbd3af235, 0x2ad7d2bb, 0xeb86d391]

/-- The 64 MD5 per-round rotation amounts. -/
def md5S : Array Nat := #[
  7, 12, 17, 22, 7, 12, 17, 22, 7, 12, 17, 22, 7, 12, 17, 22,
  5, 9, 14, 20, 5, 9, 14, 20, 5, 9, 14, 20, 5, 9, 14, 20,
  4, 11, 16, 23, 4, 11, 16, 23, 4, 11, 16, 23, 4, 11, 16, 23,
  6, 10, 15, 21, 6, 10, 15, 21, 6, 10, 15, 21, 6, 10, 15, 21]

/-- The MD5 round function F, G, H or I according to the round index. -/
def md5F (i b c d : Nat) : Nat :=
  if i < 16 then (b &&& c) ||| (wnot b &&& d)
  else if i < 32 then (d &&& b) ||| (wnot d &&& c)
  else if i < 48 then (b ^^^ c) ^^^ d
  else c ^^^ (b ||| wnot d)

/-- The MD5 message-word index for round `i`. -/
def md5G (i : Nat) : Nat :=
  if i < 16 then i
  else if i < 32 then (5 * i + 1) % 16
  else if i < 48 then (3 * i + 5) % 16
  else (7 * i) % 16

/-- Little-endian 32-bit word number `j` of a 64-byte chunk. -/
def leWord (chunk : List Nat) (j : Nat) : Nat :=
  chunk.getD (4 * j) 0 + 256 * chunk.getD (4 * j + 1) 0 +
    65536 * chunk.getD (4 * j + 2) 0 + 16777216 * chunk.getD (4 * j + 3) 0

/-- One MD5 round on the state `(a, b, c, d)`. -/
def md5Round (M : Nat → Nat) (st : Nat × Nat × Nat × Nat) (i : Nat) :
    Nat × Nat × Nat × Nat :=
  let f := wadd (wadd (wadd (md5F i st.2.1 st.2.2.1 st.2.2.2) st.1) (md5K.getD i 0))
    (M (md5G i))
  (st.2.2.2, wadd st.2.1 (rotl f (md5S.getD i 0)), st.2.1, st.2.2.1)

/-- Digest one 64-byte chunk into the running state. -/
def md5Chunk (h : Nat × Nat × Nat × Nat) (chunk : List Nat) :
    Nat × Nat × Nat × Nat :=
  let st := (List.range 64).foldl (md5Round (leWord chunk)) h
  (wadd h.1 st.1, wadd h.2.1 st.2.1, wadd h.2.2.1 st.2.2.1, wadd h.2.2.2 st.2.2.2)

/-- The 8 little-endian bytes of the 64-bit bit-length field. -/
def leBytes8 (n : Nat) : List Nat :=
  (List.range 8).map (fun i => (n >>> (8 * i)) % 256)

/-- RFC 1321 padding: a `0x80` byte, zeros to 56 mod 64, then the bit length. -/
def padBytes (msg : List Nat) : List Nat :=
  msg ++ [128] ++ List.replicate ((119 - msg.length % 64) % 64) 0 ++
    leBytes8 (8 * msg.length)

/-- Split a byte list into its 64-byte chunks (the padded message length is
always a multiple of 64, so every chunk is full). -/
def toChunks (l : List Nat) : List (List Nat) :=
  (List.range ((l.length + 63) / 64)).map (fun i => (l.drop (64 * i)).take 64)

/-- The MD5 initial state. -/
def md5Init : Nat × Nat × Nat × Nat := (0x67452301, 0xefcdab89, 0x98badcfe, 0x10325476)

/-- One lowercase hexadecimal digit. -/
def hexDigit (n : Nat) : Char :=
  if n < 10 then Char.ofNat (48 + n) else Char.ofNat (87 + n)

/-- Two hexadecimal digits of one byte. -/
def byteHex (b : Nat) : List Char :=
  [hexDigit (b / 16 % 16), hexDigit (b % 16)]

/-- A 32-bit word rendered as 8 hex digits, bytes little-endian first. -/
def wordLEHex (w : Nat) : List Char :=
  byteHex (w % 256) ++ byteHex ((w >>> 8) % 256) ++ byteHex ((w >>> 16) % 256) ++
    byteHex ((w >>> 24) % 256)

/-- `hashlib.md5(bytes).hexdigest()`: the full MD5 of a byte sequence as a
32-character lowercase hex string. -/
def md5Hex (msg : List Nat) : String :=
  let st := (toChunks (padBytes msg)).foldl md5Chunk md5Init
  String.mk (wordLEHex st.1 ++ wordLEHex st.2.1 ++ wordLEHex st.2.2.1 ++
    wordLEHex st.2.2.2)

/-- The file system as seen through `open(path, "rb")`: each path either
holds a byte sequence or does not exist. -/
abbrev FileSystem := String → Option (List Nat)

/-- Embedding of `rasa_addons.utils.file_as_bytes`: read the whole file,
raising when the path cannot be opened. -/
def file_as_bytes (fs : FileSystem) (path : String) : Except PyError (List Nat) :=
  match fs path with
  | some bytes => Except.ok bytes
  | Option.none => Except.error PyError.fileNotFound

/-- Embedding of `rasa_addons.utils.get_file_hash`:
`md5(file_as_bytes(path)).hexdigest()`. -/
def get_file_hash (fs : FileSystem) (path : String) : Except PyError String :=
  match file_as_bytes fs path with
  | Except.ok bytes => Except.ok (md5Hex bytes)
  | Except.error e => Except.error e

/-! ## Theorems -/

set_option maxRecDepth 100000 in
/-- Sanity check of the MD5 embedding against the RFC 1321 test suite:
the digest of the empty message. -/
theorem md5Hex_empty : md5Hex [] = "d41d8cd98f00b204e9800998ecf8427e" := by
  decide

set_option maxRecDepth 100000 in
/-- Sanity check of the MD5 embedding against the RFC 1321 test suite:
the digest of "abc". -/
theorem md5Hex_abc : md5Hex [97, 98, 99] = "900150983cd24fb0d6963f7d28e17f72" := by
  decide

/-- C1: `convert_user_message` returns the empty list exactly when the input
is `None`, otherwise a singleton `Message` whose data carries the text,
message id and metadata of the input unchanged; its result never has more
than one element. -/
theorem convert_user_message_source_contract (message : Option UserMessage) :
    (NLUMessageConverter.convert_user_message message).length ≤ 1 ∧
    (message = Option.none ↔ NLUMessageConverter.convert_user_message message = []) ∧
    (∀ m : UserMessage, message = some m →
      NLUMessageConverter.convert_user_message message =
        [{ data := [(TEXT, m.text), ("message_id", m.message_id),
                    ("metadata", m.metadata)] }]) := by
  cases message <;> simp [NLUMessageConverter.convert_user_message]

/-- C1 witness: the contract applied at a concrete user message. -/
theorem convert_user_message_source_contract_witness :
    NLUMessageConverter.convert_user_message
        (some ⟨PyObj.str "hello", PyObj.str "id1", PyObj.none⟩) =
      [{ data := [(TEXT, PyObj.str "hello"), ("message_id", PyObj.str "id1"),
                  ("metadata", PyObj.none)] }] :=
  (convert_user_message_source_contract
    (some ⟨PyObj.str "hello", PyObj.str "id1", PyObj.none⟩)).2.2
    ⟨PyObj.str "hello", PyObj.str "id1", PyObj.none⟩ rfl

/-- C4: `create` ignores every argument and returns a fresh stateless
instance, so any two calls — whatever their configs, storages, resources and
execution contexts, even of different types — yield equal instances whose
`convert_user_message` behaviour agrees on every input. -/
theorem create_independent_of_arguments {MS R EC MS2 R2 EC2 : Type}
    (config : List (String × PyObj)) (model_storage : MS) (resource : R)
    (execution_context : EC) (config2 : List (String × PyObj))
    (model_storage2 : MS2) (resource2 : R2) (execution_context2 : EC2) :
    NLUMessageConverter.create config model_storage resource execution_context =
      NLUMessageConverter.create config2 model_storage2 resource2 execution_context2 ∧
    ∀ message : Option UserMessage,
      (NLUMessageConverter.create config model_storage resource
          execution_context).instance_convert message =
        (NLUMessageConverter.create config2 model_storage2 resource2
          execution_context2).instance_convert message :=
  ⟨rfl, fun _ => rfl⟩

/-- C5: the statement-by-statement state-passing transcription of
`convert_user_message` leaves the input message and the model storage
untouched and computes exactly the pure function's result. -/
theorem convert_user_message_no_mutation (message : Option UserMessage)
    (storage : ModelStorageState) :
    (convert_user_message_effect message storage).2.1 = message ∧
    (convert_user_message_effect message storage).2.2 = storage ∧
    (convert_user_message_effect message storage).1 =
      NLUMessageConverter.convert_user_message message := by
  cases message <;>
    simp [convert_user_message_effect, NLUMessageConverter.convert_user_message]

/-- C6: `read_global_config` never propagates an exception: when
`read_config_file` raises — for any reason — it returns the empty mapping,
and when reading succeeds it returns the parsed mapping. -/
theorem read_global_config_total (w : IOWorld) (path : String) :
    (∀ e, w.read_config_file path = Except.error e →
      read_global_config w path = []) ∧
    (∀ c, w.read_config_file path = Except.ok c →
      read_global_config w path = c) := by
  constructor
  · intro e he
    simp [read_global_config, he]
  · intro c hc
    simp [read_global_config, hc]

/-- C6 witness: a world whose config file read raises a parse error, and one
whose read succeeds. -/
theorem read_global_config_total_witness :
    read_global_config ⟨fun _ => Except.error (PyError.other "bad yaml"),
        fun _ => false⟩ "global.yml" = [] ∧
    read_global_config ⟨fun _ => Except.ok [("lang", PyObj.str "en")],
        fun _ => true⟩ "global.yml" = [("lang", PyObj.str "en")] :=
  ⟨(read_global_config_total ⟨fun _ => Except.error (PyError.other "bad yaml"),
      fun _ => false⟩ "global.yml").1 (PyError.other "bad yaml") rfl,
   (read_global_config_total ⟨fun _ => Except.ok [("lang", PyObj.str "en")],
      fun _ => true⟩ "global.yml").2 [("lang", PyObj.str "en")] rfl⟩

/-- C2: `get_file_hash` is the MD5 hex digest of the bytes `file_as_bytes`
reads, and it is deterministic: whenever two paths hold identical byte
contents — in particular the same unchanged file read twice — the digests
are identical. -/
theorem get_file_hash_deterministic (fs1 fs2 : FileSystem) (p1 p2 : String)
    (h : fs1 p1 = fs2 p2) :
    get_file_hash fs1 p1 = get_file_hash fs2 p2 ∧
    (∀ bytes, file_as_bytes fs1 p1 = Except.ok bytes →
      get_file_hash fs1 p1 = Except.ok (md5Hex bytes)) := by
  constructor
  · simp only [get_file_hash, file_as_bytes, h]
  · intro bytes hb
    simp [get_file_hash, hb]

/-- `TempDirectoryPath.__exit__` never raises: the `os.path.exists` guard
means it either removes the subtree or leaves the file system alone. -/
theorem TempDirectoryPath_exit_eq (p : FSPath) (fs : FSPaths) :
    TempDirectoryPath_exit p fs =
      Except.ok (if path_exists fs p then
        fs.filter (fun q => !(isUnderPath p q)) else fs) := by
  unfold TempDirectoryPath_exit shutil_rmtree
  by_cases h : path_exists fs p <;> simp [h]

/-- Removing the subtree rooted at `p` removes `p` itself. -/
theorem path_exists_filter_self (p : FSPath) (fs : FSPaths) :
    path_exists (fs.filter (fun q => !(isUnderPath p q))) p = false := by
  have he : path_exists (fs.filter (fun q => !(isUnderPath p q))) p =
      decide (p ∈ fs.filter (fun q => !(isUnderPath p q))) :=
    List.elem_eq_mem _ _
  rw [he, decide_eq_false_iff_not]
  intro hmem
  have h := List.of_mem_filter hmem
  have hp : List.isPrefixOf p p = true :=
    List.isPrefixOf_iff_prefix.mpr List.prefix_rfl
  simp [isUnderPath, hp] at h

/-- C3: leaving the `with TempDirectoryPath(p)` block — after a normal body
return and after a body exception alike — never fails, leaves no directory
at `p`, preserves the body outcome, and changes nothing when `p` was
already absent. -/
theorem with_TempDirectoryPath_cleanup {A : Type} (p : FSPath)
    (body : FSPaths → FSPaths × BodyOutcome A) (fs : FSPaths) :
    (with_TempDirectoryPath p body fs).isOk = true ∧
    (∀ fs2 r, with_TempDirectoryPath p body fs = Except.ok (fs2, r) →
      path_exists fs2 p = false ∧ r = (body fs).2 ∧
      (path_exists (body fs).1 p = false → fs2 = (body fs).1)) := by
  have hmain : with_TempDirectoryPath p body fs =
      Except.ok ((if path_exists (body fs).1 p then
        (body fs).1.filter (fun q => !(isUnderPath p q)) else (body fs).1),
        (body fs).2) := by
    show (match TempDirectoryPath_exit p (body fs).1 with
      | Except.ok fs2 => Except.ok (fs2, (body fs).2)
      | Except.error e => Except.error e) = _
    rw [TempDirectoryPath_exit_eq]
  constructor
  · rw [hmain]
    rfl
  · intro fs2 r h
    rw [hmain] at h
    have h' := Except.ok.inj h
    have h1 : fs2 = if path_exists (body fs).1 p then
        (body fs).1.filter (fun q => !(isUnderPath p q)) else (body fs).1 :=
      (congrArg Prod.fst h').symm
    have h2 : r = (body fs).2 := (congrArg Prod.snd h').symm
    subst h1
    refine ⟨?_, h2, ?_⟩
    · by_cases hp : path_exists (body fs).1 p = true
      · rw [if_pos hp]
        exact path_exists_filter_self p (body fs).1
      · rw [if_neg hp]
        simpa using hp
    · intro habs
      simp [habs]

/-- C3 witness: a body that creates a further sub-directory and then raises;
the block exits without error and the temporary tree is gone. -/
theorem with_TempDirectoryPath_cleanup_witness :
    (with_TempDirectoryPath ["proj", "tmp"]
        (fun s => (["proj", "tmp", "sub"] :: s,
          (BodyOutcome.raised (PyError.other "boom") : BodyOutcome Nat)))
        [["proj"], ["proj", "tmp"]]).isOk = true ∧
    path_exists [["proj"]] ["proj", "tmp"] = false :=
  ⟨(with_TempDirectoryPath_cleanup ["proj", "tmp"]
      (fun s => (["proj", "tmp", "sub"] :: s,
        (BodyOutcome.raised (PyError.other "boom") : BodyOutcome Nat)))
      [["proj"], ["proj", "tmp"]]).1,
   ((with_TempDirectoryPath_cleanup ["proj", "tmp"]
      (fun s => (["proj", "tmp", "sub"] :: s,
        (BodyOutcome.raised (PyError.other "boom") : BodyOutcome Nat)))
      [["proj"], ["proj", "tmp"]]).2 [["proj"]]
      (BodyOutcome.raised (PyError.other "boom")) rfl).1⟩

/-- C8: `read_global_config_value` raises `ValueError` exactly when
`unavailable_ok` is false and the global config file is missing or the key
is absent from the parsed configuration; with `unavailable_ok` true those
cases return `None`; a present key always returns its stored value. -/
theorem read_global_config_value_spec (w : IOWorld) (name : String) (u : Bool) :
    ((∃ msg, read_global_config_value w name u =
        Except.error (PyError.valueError msg)) ↔
      (u = false ∧ (w.os_path_exists GLOBAL_USER_CONFIG_PATH = false ∨
        dictContains (read_global_config w GLOBAL_USER_CONFIG_PATH) name = false))) ∧
    ((u = true ∧ (w.os_path_exists GLOBAL_USER_CONFIG_PATH = false ∨
        dictContains (read_global_config w GLOBAL_USER_CONFIG_PATH) name = false)) →
      read_global_config_value w name u = Except.ok Option.none) ∧
    ((w.os_path_exists GLOBAL_USER_CONFIG_PATH = true ∧
        dictContains (read_global_config w GLOBAL_USER_CONFIG_PATH) name = true) →
      read_global_config_value w name u =
        Except.ok (dictGet? (read_global_config w GLOBAL_USER_CONFIG_PATH) name)) := by
  unfold read_global_config_value
  by_cases hp : w.os_path_exists GLOBAL_USER_CONFIG_PATH <;>
    by_cases hc : dictContains (read_global_config w GLOBAL_USER_CONFIG_PATH) name <;>
      cases u <;> simp [hp, hc]

/-- C8 witness: a world whose config file exists and parses to a one-key
mapping; reading that key returns its stored value, and reading a missing
key with `unavailable_ok = False` raises `ValueError`. -/
theorem read_global_config_value_spec_witness :
    read_global_config_value
        ⟨fun _ => Except.ok [("lang", PyObj.str "en")], fun _ => true⟩
        "lang" true = Except.ok (some (PyObj.str "en")) ∧
    read_global_config_value
        ⟨fun _ => Except.ok [("lang", PyObj.str "en")], fun _ => true⟩
        "other" false =
      Except.error (PyError.valueError "Configuration other key not found.") :=
  ⟨by
    have h := (read_global_config_value_spec
      ⟨fun _ => Except.ok [("lang", PyObj.str "en")], fun _ => true⟩
      "lang" true).2.2 ⟨rfl, by decide⟩
    exact h.trans rfl,
   by
    have h := (read_global_config_value_spec
      ⟨fun _ => Except.ok [("lang", PyObj.str "en")], fun _ => true⟩
      "other" false).1.mpr ⟨rfl, Or.inr (by decide)⟩
    obtain ⟨msg, hmsg⟩ := h
    have heq : Except.error (PyError.valueError msg) =
        (Except.error
          (PyError.valueError "Configuration other key not found.") :
          Except PyError (Option PyObj)) :=
      hmsg.symm.trans rfl
    have hm : msg = "Configuration other key not found." :=
      PyError.valueError.inj (Except.error.inj heq)
    exact hm ▸ hmsg⟩

/-- C10: `copy_directory` raises `ValueError` exactly when the destination
exists and is non-empty beforehand, and then copies nothing (the state
carried by the error is the untouched destination); otherwise the
destination exists afterwards and holds exactly the top-level entries of
the source. -/
theorem copy_directory_spec (source : List DirEntry) (destination : DirState) :
    ((∃ msg d, copy_directory source destination =
        Except.error (PyError.valueError msg, d)) ↔
      (destination.dirExists = true ∧ destination.entries ≠ [])) ∧
    (∀ msg d, copy_directory source destination =
        Except.error (PyError.valueError msg, d) → d = destination) ∧
    ((destination.dirExists = false ∨ destination.entries = []) →
      copy_directory source destination =
        Except.ok { dirExists := true, entries := source }) := by
  obtain ⟨ex, entries⟩ := destination
  unfold copy_directory
  cases ex <;> cases entries <;> simp

/-- C10 witness: copying two entries into a not-yet-existing destination
succeeds and produces exactly those entries, while a non-empty destination
is rejected untouched. -/
theorem copy_directory_spec_witness :
    copy_directory [⟨"nlu", true⟩, ⟨"model.tar.gz", false⟩] ⟨false, []⟩ =
      Except.ok ⟨true, [⟨"nlu", true⟩, ⟨"model.tar.gz", false⟩]⟩ ∧
    (∃ msg d, copy_directory [⟨"nlu", true⟩] ⟨true, [⟨"old", false⟩]⟩ =
      Except.error (PyError.valueError msg, d)) :=
  ⟨(copy_directory_spec [⟨"nlu", true⟩, ⟨"model.tar.gz", false⟩]
      ⟨false, []⟩).2.2 (Or.inl rfl),
   (copy_directory_spec [⟨"nlu", true⟩] ⟨true, [⟨"old", false⟩]⟩).1.mpr
     ⟨rfl, by decide⟩⟩

/-- Unfolding of `dictGet?` on a cons cell. -/
theorem dictGet?_cons {K V : Type} [DecidableEq K] (p : K × V)
    (d : List (K × V)) (k : K) :
    dictGet? (p :: d) k = if p.1 = k then some p.2 else dictGet? d k := by
  by_cases h : p.1 = k
  · rw [if_pos h]
    unfold dictGet?
    rw [List.find?_cons_of_pos _ (by simp [h])]
    rfl
  · rw [if_neg h]
    unfold dictGet?
    rw [List.find?_cons_of_neg _ (by simp [h])]

/-- Unfolding of `dictContains` on a cons cell. -/
theorem dictContains_cons {K V : Type} [DecidableEq K] (p : K × V)
    (d : List (K × V)) (k : K) :
    dictContains (p :: d) k = (decide (p.1 = k) || dictContains d k) := rfl

/-- A dict lookup misses exactly when the key is not contained. -/
theorem dictGet?_eq_none_iff {K V : Type} [DecidableEq K]
    (d : List (K × V)) (k : K) :
    dictGet? d k = Option.none ↔ dictContains d k = false := by
  induction d with
  | nil => exact ⟨fun _ => rfl, fun _ => rfl⟩
  | cons p d ih =>
      rw [dictGet?_cons, dictContains_cons]
      by_cases h : p.1 = k <;> simp [h, ih]

/-- `k in d` is membership of `k` in the key list. -/
theorem dictContains_iff_mem_keys {K V : Type} [DecidableEq K]
    (d : List (K × V)) (k : K) :
    dictContains d k = true ↔ k ∈ dictKeys d := by
  unfold dictContains dictKeys
  rw [List.any_eq_true, List.mem_map]
  constructor
  · rintro ⟨p, hp, hpk⟩
    exact ⟨p, hp, of_decide_eq_true hpk⟩
  · rintro ⟨p, hp, hpk⟩
    exact ⟨p, hp, decide_eq_true hpk⟩

/-- Updating an existing key leaves the key list unchanged. -/
theorem dictKeys_dictSetExisting {K V : Type} [DecidableEq K]
    (d : List (K × V)) (k : K) (v : V) :
    dictKeys (dictSetExisting d k v) = dictKeys d := by
  simp only [dictKeys, dictSetExisting, List.map_map]
  congr 1
  funext p
  by_cases h : p.1 = k <;> simp [h]

/-- Updating an existing key leaves containment unchanged. -/
theorem dictContains_dictSetExisting {K V : Type} [DecidableEq K]
    (d : List (K × V)) (k0 k : K) (v : V) :
    dictContains (dictSetExisting d k0 v) k = dictContains d k := by
  simp only [dictContains, dictSetExisting, List.any_map]
  congr 1
  funext p
  by_cases h : p.1 = k0 <;> simp [h, Function.comp]

/-- After updating a contained key, looking it up yields the new value. -/
theorem dictGet?_dictSetExisting_self {K V : Type} [DecidableEq K]
    (d : List (K × V)) (k : K) (v : V) (h : dictContains d k = true) :
    dictGet? (dictSetExisting d k v) k = some v := by
  induction d with
  | nil => simp [dictContains] at h
  | cons p d ih =>
      rw [dictContains_cons] at h
      by_cases hp : p.1 = k
      · simp [dictSetExisting, dictGet?_cons, hp]
      · have hd : dictContains d k = true := by
          simpa [hp] using h
        simpa [dictSetExisting, dictGet?_cons, hp] using ih hd

/-- Updating one key does not change the lookup of a different key. -/
theorem dictGet?_dictSetExisting_ne {K V : Type} [DecidableEq K]
    (d : List (K × V)) (k0 k : K) (v : V) (h : k ≠ k0) :
    dictGet? (dictSetExisting d k0 v) k = dictGet? d k := by
  induction d with
  | nil => rfl
  | cons p d ih =>
      show dictGet? ((if p.1 = k0 then (p.1, v) else p) :: dictSetExisting d k0 v) k = _
      rw [dictGet?_cons, dictGet?_cons]
      by_cases hp : p.1 = k0
      · rw [if_pos hp]
        by_cases hpk : p.1 = k
        · exact absurd (hpk ▸ hp) h
        · rw [if_neg (show ¬((p.1, v).1 = k) from hpk), if_neg hpk]
          exact ih
      · rw [if_neg hp]
        by_cases hpk : p.1 = k
        · rw [if_pos hpk, if_pos hpk]
        · rw [if_neg hpk, if_neg hpk]
          exact ih

/-- The fold of `update_existing_keys` preserves the key list. -/
theorem update_existing_keys_keys {K V : Type} [DecidableEq K]
    (original updates : List (K × V)) :
    dictKeys (update_existing_keys original updates) = dictKeys original := by
  induction updates generalizing original with
  | nil => rfl
  | cons kv u ih =>
      show dictKeys (update_existing_keys
        (if dictContains original kv.1 then
          dictSetExisting original kv.1 kv.2 else original) u) = _
      rw [ih]
      by_cases h : dictContains original kv.1 = true <;>
        simp [h, dictKeys_dictSetExisting]

/-- Pointwise lookup behaviour of `update_existing_keys`: keys of the
original take the update value when the updates contain them, keep their
original value otherwise, and nothing else is ever present. -/
theorem update_existing_keys_get? {K V : Type} [DecidableEq K]
    (original updates : List (K × V)) (hu : (dictKeys updates).Nodup) (k : K) :
    dictGet? (update_existing_keys original updates) k =
      if dictContains original k = true then
        (if dictContains updates k = true then dictGet? updates k
         else dictGet? original k)
      else Option.none := by
  induction updates generalizing original with
  | nil =>
      show dictGet? original k = _
      have hnil : dictContains ([] : List (K × V)) k = false := rfl
      rw [hnil]
      by_cases h : dictContains original k = true
      · rw [if_pos h, if_neg (by simp : ¬(false = true))]
      · rw [if_neg h]
        exact (dictGet?_eq_none_iff original k).mpr (by simpa using h)
  | cons kv u ih =>
      have hu1 : kv.1 ∉ dictKeys u := (List.nodup_cons.mp hu).1
      have hu2 : (dictKeys u).Nodup := (List.nodup_cons.mp hu).2
      have hstep : update_existing_keys original (kv :: u) =
          update_existing_keys
            (if dictContains original kv.1 then
              dictSetExisting original kv.1 kv.2 else original) u := rfl
      rw [hstep]
      by_cases ho : dictContains original kv.1 = true
      · rw [if_pos ho, ih _ hu2, dictContains_dictSetExisting]
        by_cases hk : kv.1 = k
        · subst hk
          have hcu : dictContains u kv.1 = false := by
            cases hbool : dictContains u kv.1 with
            | false => rfl
            | true => exact absurd ((dictContains_iff_mem_keys u kv.1).mp hbool) hu1
          have hcR : dictContains (kv :: u) kv.1 = true := by
            simp [dictContains_cons]
          have hgR : dictGet? (kv :: u) kv.1 = some kv.2 := by
            rw [dictGet?_cons, if_pos rfl]
          simp only [ho, if_true, hcu, hcR, hgR, Bool.false_eq_true, if_false]
          exact dictGet?_dictSetExisting_self original kv.1 kv.2 ho
        · have hc1 : dictContains (kv :: u) k = dictContains u k := by
            simp [dictContains_cons, hk]
          have hg1 : dictGet? (kv :: u) k = dictGet? u k := by
            rw [dictGet?_cons, if_neg hk]
          have hset : dictGet? (dictSetExisting original kv.1 kv.2) k =
              dictGet? original k :=
            dictGet?_dictSetExisting_ne original kv.1 k kv.2 (fun hkk => hk hkk.symm)
          rw [hc1, hg1, hset]
      · rw [if_neg ho, ih _ hu2]
        by_cases hk : kv.1 = k
        · subst hk
          have ho' : dictContains original kv.1 = false := by simpa using ho
          simp only [ho', Bool.false_eq_true, if_false]
        · have hc1 : dictContains (kv :: u) k = dictContains u k := by
            simp [dictContains_cons, hk]
          have hg1 : dictGet? (kv :: u) k = dictGet? u k := by
            rw [dictGet?_cons, if_neg hk]
          rw [hc1, hg1]

/-- C7: `update_existing_keys` keeps exactly the keys of the original dict;
a key also present in the updates maps to the update value, any other key
keeps its original value, and keys occurring only in the updates are
ignored (the result never contains them).  The embedding is pure, so the
original dict itself is untouched by construction (`original.copy()`). -/
theorem update_existing_keys_spec {K V : Type} [DecidableEq K]
    (original updates : List (K × V)) (hu : (dictKeys updates).Nodup) :
    dictKeys (update_existing_keys original updates) = dictKeys original ∧
    ∀ k : K, dictGet? (update_existing_keys original updates) k =
      if dictContains original k = true then
        (if dictContains updates k = true then dictGet? updates k
         else dictGet? original k)
      else Option.none :=
  ⟨update_existing_keys_keys original updates,
   fun k => update_existing_keys_get? original updates hu k⟩

/-- C7 witness: a shared key takes the update value, an original-only key
keeps its value, and an updates-only key stays absent. -/
theorem update_existing_keys_spec_witness :
    dictKeys (update_existing_keys [("a", 1), ("b", 2)] [("b", 20), ("c", 30)]) =
      ["a", "b"] ∧
    dictGet? (update_existing_keys [("a", 1), ("b", 2)] [("b", 20), ("c", 30)]) "b" =
      some 20 ∧
    dictGet? (update_existing_keys [("a", 1), ("b", 2)] [("b", 20), ("c", 30)]) "a" =
      some 1 ∧
    dictGet? (update_existing_keys [("a", 1), ("b", 2)] [("b", 20), ("c", 30)]) "c" =
      Option.none := by
  have h := update_existing_keys_spec [("a", 1), ("b", 2)] [("b", 20), ("c", 30)]
    (by decide)
  exact ⟨h.1, (h.2 "b").trans (by decide), (h.2 "a").trans (by decide),
    (h.2 "c").trans (by decide)⟩

/-- A matching event has a present language value. -/
theorem isUserLanguageEvent_lang {e : Event} (h : isUserLanguageEvent e = true) :
    ∃ v, eventLanguage e = some v := by
  obtain ⟨ev, pd⟩ := e
  cases pd with
  | none => simp [isUserLanguageEvent] at h
  | some pd =>
      cases hl : pd.language with
      | none => simp [isUserLanguageEvent, hl] at h
      | some v => exact ⟨v, by simp [eventLanguage, hl]⟩

/-- The loop of `get_latest_parse_data_language` returns the language value
of the first matching event of its input, `None` when there is none — or
when that stored value is itself `None`. -/
theorem latest_language_loop_spec (l : List Event) :
    (∀ e, l.find? isUserLanguageEvent = some e →
      latest_language_loop l = (eventLanguage e).getD PyObj.none) ∧
    (latest_language_loop l = PyObj.none ↔
      (l.find? isUserLanguageEvent = Option.none ∨
       ∃ e, l.find? isUserLanguageEvent = some e ∧
         eventLanguage e = some PyObj.none)) := by
  induction l with
  | nil => simp [latest_language_loop]
  | cons e l ih =>
      by_cases he : isUserLanguageEvent e = true
      · rw [List.find?_cons_of_pos _ he]
        obtain ⟨v, hv⟩ := isUserLanguageEvent_lang he
        constructor
        · intro e' he'
          have : e' = e := (Option.some.inj he').symm
          subst this
          simp [latest_language_loop, he]
        · simp only [latest_language_loop, he, if_true, hv, Option.getD_some]
          constructor
          · intro hnone
            exact Or.inr ⟨e, rfl, by rw [hv, hnone]⟩
          · rintro (hbad | ⟨e', he', hl⟩)
            · exact absurd hbad (by simp)
            · have : e' = e := (Option.some.inj he').symm
              subst this
              exact Option.some.inj (hv.symm.trans hl)
      · rw [List.find?_cons_of_neg _ he]
        have hloop : latest_language_loop (e :: l) = latest_language_loop l := by
          simp [latest_language_loop, he]
        rw [hloop]
        exact ih

/-- C9 counterexample: an event with `"event": "user"` and a `"language"`
key holding the value `None` matches the search, yet the function returns
`None` — so a `None` return does not imply that no matching event exists,
refuting the "if and only if" as stated. -/
theorem get_latest_parse_data_language_counterexample :
    isUserLanguageEvent ⟨"user", some ⟨some PyObj.none⟩⟩ = true ∧
    get_latest_parse_data_language [⟨"user", some ⟨some PyObj.none⟩⟩] =
      PyObj.none := by
  exact ⟨rfl, rfl⟩

/-- C9 (amended): the function returns the `"language"` value of the last
(latest in list order) matching event, and returns `None` exactly when no
matching event exists or the stored language value of that last matching
event is itself `None`. -/
theorem get_latest_parse_data_language_spec (all_events : List Event) :
    (∀ e, all_events.reverse.find? isUserLanguageEvent = some e →
      get_latest_parse_data_language all_events =
        (eventLanguage e).getD PyObj.none) ∧
    (get_latest_parse_data_language all_events = PyObj.none ↔
      (all_events.reverse.find? isUserLanguageEvent = Option.none ∨
       ∃ e, all_events.reverse.find? isUserLanguageEvent = some e ∧
         eventLanguage e = some PyObj.none)) :=
  latest_language_loop_spec all_events.reverse

/-- C9 witness: with two user events carrying languages "fr" then "en", the
latest one wins. -/
theorem get_latest_parse_data_language_spec_witness :
    get_latest_parse_data_language
      [⟨"user", some ⟨some (PyObj.str "fr")⟩⟩, ⟨"bot", Option.none⟩,
       ⟨"user", some ⟨some (PyObj.str "en")⟩⟩] = PyObj.str "en" :=
  ((get_latest_parse_data_language_spec
      [⟨"user", some ⟨some (PyObj.str "fr")⟩⟩, ⟨"bot", Option.none⟩,
       ⟨"user", some ⟨some (PyObj.str "en")⟩⟩]).1
    ⟨"user", some ⟨some (PyObj.str "en")⟩⟩ rfl).trans rfl

/-- C2 witness: two distinct paths of a concrete file system holding the
same three bytes hash identically. -/
theorem get_file_hash_deterministic_witness :
    get_file_hash (fun _ => some [97, 98, 99]) "model_a.tar.gz" =
      get_file_hash (fun _ => some [97, 98, 99]) "model_b.tar.gz" :=
  (get_file_hash_deterministic (fun _ => some [97, 98, 99])
    (fun _ => some [97, 98, 99]) "model_a.tar.gz" "model_b.tar.gz" rfl).1

end RasaSpec
